import Mathlib

/-!
Verification development for the Unstract API-deployments batch runner
(`main.py`): a resumable, concurrent batch driver that submits files to a
remote document-processing API, polls for completion, and records every
transition in a SQLite ledger (table `file_status`).

The embedding below models the Python source shallowly:

* JSON-ish Python values are `JValue` (numbers are exact rationals; the
  source uses Python floats, i.e. IEEE-754 doubles — for the concrete
  decimal sums exercised here, e.g. 0.01 + 0.02, the double computation
  is exact and agrees with the rational one).
* Fallible Python operations (attribute errors, type errors, value
  errors) are `Except String`; an `Except.error` models a raised
  exception, carrying the message.
* The SQLite table is a `List Row`; `INSERT OR REPLACE` on the UNIQUE
  `file_name` column is delete-then-insert; SQL `NULL` is `Option.none`.
* The external API client (module `unstract.api_deployments.client`,
  outside this repository) is an oracle: a submit response plus a list of
  poll responses, each possibly an exception.
-/

namespace BatchRun

/-- Python/JSON values as manipulated by `main.py`. Numbers are modelled
as exact rationals (see file header). -/
inductive JValue where
  | null
  | bool (b : Bool)
  | num (q : ℚ)
  | str (s : String)
  | arr (items : List JValue)
  | obj (fields : List (String × JValue))

/-- Python truthiness for the values above: `None`, `False`, `0`, `""`,
`[]` and the empty dict are falsy, everything else truthy. -/
def truthy : JValue → Bool
  | .null => false
  | .bool b => b
  | .num q => decide (q ≠ 0)
  | .str s => !s.isEmpty
  | .arr xs => !xs.isEmpty
  | .obj kvs => !kvs.isEmpty

/-- Model of `v.get(key, dflt)`: dict lookup with default; raises
`AttributeError` when the receiver is not a dict (e.g. `None.get(...)`). -/
def pyGetD (v : JValue) (key : String) (dflt : JValue) : Except String JValue :=
  match v with
  | .obj kvs => .ok ((kvs.lookup key).getD dflt)
  | _ => .error "AttributeError: object has no attribute get"

/-- Model of `v[0]`: lists yield their first element, strings their
first character; anything else is a `TypeError` (or `IndexError` when
empty). -/
def pyIndexZero : JValue → Except String JValue
  | .arr (x :: _) => .ok x
  | .arr [] => .error "IndexError: list index out of range"
  | .str s =>
    match s.toList with
    | c :: _ => .ok (.str (String.mk [c]))
    | [] => .error "IndexError: string index out of range"
  | _ => .error "TypeError: object is not subscriptable"

/-- Model of `v[key]` for a string key: dict lookup; `TypeError`
otherwise. -/
def pyIndexKey (v : JValue) (key : String) : Except String JValue :=
  match v with
  | .obj kvs =>
    match kvs.lookup key with
    | some x => .ok x
    | none => .error "KeyError"
  | _ => .error "TypeError: indices must be integers"

/-- Substring test on character lists, used for the Python `in`
operator on strings. -/
def charsContain (hay needle : List Char) : Bool :=
  match hay with
  | [] => needle.isEmpty
  | _ :: t => needle.isPrefixOf hay || charsContain t needle

/-- Python `"s" in v`: key membership for dicts, substring for strings,
element equality for lists; `TypeError` for non-containers. -/
def pyContainsStr (needle : String) (v : JValue) : Except String Bool :=
  match v with
  | .obj kvs => .ok (kvs.any (fun kv => kv.1 == needle))
  | .str s => .ok (charsContain s.toList needle.toList)
  | .arr xs =>
    .ok (xs.any (fun x => match x with | .str s => s == needle | _ => false))
  | _ => .error "TypeError: argument is not iterable"

/-- Model of `for item in v`: lists yield elements, strings their
characters, dicts their keys; `TypeError` otherwise. -/
def pyIter : JValue → Except String (List JValue)
  | .arr xs => .ok xs
  | .str s => .ok (s.toList.map (fun c => .str (String.mk [c])))
  | .obj kvs => .ok (kvs.map (fun kv => .str kv.1))
  | _ => .error "TypeError: object is not iterable"

/-- Numeric value of a decimal digit sequence. -/
def digitsVal (cs : List Char) : ℕ :=
  cs.foldl (fun a c => 10 * a + (c.toNat - 48)) 0

/-- Whitespace accepted by Python `float()` stripping / the JSON lexer. -/
def isWsChar (c : Char) : Bool :=
  c == ' ' || c == '\n' || c == '\t' || c == '\r'

/-- Value of the decimal `sign integer.fraction * 10^e`, built with
integer arithmetic and `mkRat` (kernel-friendly). -/
def decToRat (sgn : ℤ) (ip fp : List Char) (e : ℤ) : ℚ :=
  let n : ℤ := sgn * ((digitsVal (ip ++ fp) : ℕ) : ℤ)
  let e2 : ℤ := e - fp.length
  if 0 ≤ e2 then mkRat (n * (10 : ℤ) ^ e2.toNat) 1
  else mkRat n ((10 : ℕ) ^ (-e2).toNat)

/-- Exponent suffix `e`/`E` with optional sign, shared by `parseFloat`
and the JSON number grammar. Returns the exponent and must consume the
whole remainder. -/
def parseExpSuffix (cs : List Char) : Option ℤ :=
  match cs with
  | [] => some 0
  | e :: t =>
    if e == 'e' || e == 'E' then
      let (sgn, t2) : ℤ × List Char :=
        match t with
        | '-' :: u => (-1, u)
        | '+' :: u => (1, u)
        | u => (1, u)
      let (ds, rest) := t2.span Char.isDigit
      if ds.isEmpty || !rest.isEmpty then none
      else some (sgn * (digitsVal ds : ℤ))
    else none

/-- Model of Python `float(str)`: strip whitespace, optional sign, digits
with optional fraction and exponent. (The `inf`/`nan` literals and digit
underscores accepted by CPython are not modelled; no caller here feeds
them.) -/
def parseFloat (s : String) : Option ℚ :=
  let cs := s.toList.dropWhile isWsChar
  let cs := (cs.reverse.dropWhile isWsChar).reverse
  let (sgn, cs1) : ℤ × List Char :=
    match cs with
    | '-' :: t => (-1, t)
    | '+' :: t => (1, t)
    | t => (1, t)
  let (ip, r1) := cs1.span Char.isDigit
  let (fp, r2) :=
    match r1 with
    | '.' :: t => t.span Char.isDigit
    | _ => ([], r1)
  let consumedDot : Bool := match r1 with | '.' :: _ => true | _ => false
  if ip.isEmpty && fp.isEmpty then none
  else
    let rest := if consumedDot then r2 else r1
    match parseExpSuffix rest with
    | none => none
    | some e => some (decToRat sgn ip fp e)

/-- Python `float(v)`: numbers pass through, booleans coerce, strings are
parsed, everything else is a `TypeError`. -/
def pyFloat (v : JValue) : Except String ℚ :=
  match v with
  | .num q => .ok q
  | .bool b => .ok (if b then 1 else 0)
  | .str s =>
    match parseFloat s with
    | some q => .ok q
    | none => .error "ValueError: could not convert string to float"
  | _ => .error "TypeError: float argument must be a string or a number"

/-- Python `n + v` for a numeric accumulator `n`: only numbers and
booleans are accepted; adding a string or container raises `TypeError`. -/
def pyToNum (v : JValue) : Except String ℚ :=
  match v with
  | .num q => .ok q
  | .bool b => .ok (if b then 1 else 0)
  | _ => .error "TypeError: unsupported operand type for +"

/-! ### A small JSON parser, modelling `json.loads`

Fuel-based recursive descent in a single structural recursion (the fuel
bounds the call depth; `2 * length + 8` always suffices since every other
call consumes a character). CPython extensions such as the `NaN` and
`Infinity` literals, and its rejection of leading zeros, are not
modelled. -/

def lbraceChar : Char := Char.ofNat 123

def rbraceChar : Char := Char.ofNat 125

def skipWs (cs : List Char) : List Char := cs.dropWhile isWsChar

/-- Value of a hexadecimal digit, for string escapes. -/
def hexVal (c : Char) : Option ℕ :=
  if c.isDigit then some (c.toNat - 48)
  else if 'a' ≤ c && c ≤ 'f' then some (c.toNat - 87)
  else if 'A' ≤ c && c ≤ 'F' then some (c.toNat - 55)
  else none

/-- Scan a JSON string body (the opening quote already consumed),
handling escapes; returns the string and the remaining input. -/
def scanString (acc : List Char) (cs : List Char) : Option (String × List Char) :=
  match cs with
  | [] => none
  | c :: rest =>
    if c == '"' then some (String.mk acc.reverse, rest)
    else if c == '\\' then
      match rest with
      | [] => none
      | e :: rest2 =>
        if e == '"' then scanString ('"' :: acc) rest2
        else if e == '\\' then scanString ('\\' :: acc) rest2
        else if e == '/' then scanString ('/' :: acc) rest2
        else if e == 'b' then scanString (Char.ofNat 8 :: acc) rest2
        else if e == 'f' then scanString (Char.ofNat 12 :: acc) rest2
        else if e == 'n' then scanString ('\n' :: acc) rest2
        else if e == 'r' then scanString ('\r' :: acc) rest2
        else if e == 't' then scanString ('\t' :: acc) rest2
        else if e == 'u' then
          match rest2 with
          | h1 :: h2 :: h3 :: h4 :: rest3 =>
            match hexVal h1, hexVal h2, hexVal h3, hexVal h4 with
            | some a, some b, some c2, some d =>
              scanString (Char.ofNat (((a * 16 + b) * 16 + c2) * 16 + d) :: acc) rest3
            | _, _, _, _ => none
          | _ => none
        else none
    else scanString (c :: acc) rest

/-- JSON number grammar (a superset: leading zeros are not rejected). -/
def scanNumber (cs : List Char) : Option (ℚ × List Char) :=
  let (sgn, cs1) : ℤ × List Char :=
    match cs with
    | '-' :: t => (-1, t)
    | t => (1, t)
  let (ip, r1) := cs1.span Char.isDigit
  if ip.isEmpty then none
  else
    let (fp, r2) :=
      match r1 with
      | '.' :: t => t.span Char.isDigit
      | _ => ([], r1)
    let afterFrac := match r1 with | '.' :: _ => r2 | _ => r1
    if (match r1 with | '.' :: _ => fp.isEmpty | _ => false) then none
    else
      let (ex, r3) : ℤ × List Char :=
        match afterFrac with
        | e :: t =>
          if e == 'e' || e == 'E' then
            let (esgn, t2) : ℤ × List Char :=
              match t with
              | '-' :: u => (-1, u)
              | '+' :: u => (1, u)
              | u => (1, u)
            let (ds, rest) := t2.span Char.isDigit
            if ds.isEmpty then (0, afterFrac)
            else (esgn * (digitsVal ds : ℤ), rest)
          else (0, afterFrac)
        | [] => (0, afterFrac)
      some (decToRat sgn ip fp ex, r3)

/-- Parsing mode: a single value, the members of an object, or the
elements of an array. -/
inductive PMode where
  | value
  | members (first : Bool) (acc : List (String × JValue))
  | elems (first : Bool) (acc : List JValue)

/-- Fuel-bounded JSON parser. In `members`/`elems` modes the input
starts just after a brace/bracket or a comma. -/
def parseJ (fuel : ℕ) (mode : PMode) (cs : List Char) : Option (JValue × List Char) :=
  match fuel with
  | 0 => none
  | fuel + 1 =>
    match mode with
    | .value =>
      match skipWs cs with
      | [] => none
      | c :: rest =>
        if c == lbraceChar then parseJ fuel (.members true []) rest
        else if c == '[' then parseJ fuel (.elems true []) rest
        else if c == '"' then (scanString [] rest).map (fun p => (.str p.1, p.2))
        else if c == 't' then
          match rest with
          | 'r' :: 'u' :: 'e' :: r => some (.bool true, r)
          | _ => none
        else if c == 'f' then
          match rest with
          | 'a' :: 'l' :: 's' :: 'e' :: r => some (.bool false, r)
          | _ => none
        else if c == 'n' then
          match rest with
          | 'u' :: 'l' :: 'l' :: r => some (.null, r)
          | _ => none
        else (scanNumber (c :: rest)).map (fun p => (.num p.1, p.2))
    | .members first acc =>
      match skipWs cs with
      | [] => none
      | c :: rest =>
        if first && c == rbraceChar then some (.obj acc.reverse, rest)
        else if c == '"' then
          match scanString [] rest with
          | none => none
          | some (key, r1) =>
            match skipWs r1 with
            | ':' :: r2 =>
              match parseJ fuel .value r2 with
              | none => none
              | some (v, r3) =>
                match skipWs r3 with
                | ',' :: r4 => parseJ fuel (.members false ((key, v) :: acc)) r4
                | d :: r4 =>
                  if d == rbraceChar then some (.obj ((key, v) :: acc).reverse, r4)
                  else none
                | [] => none
            | _ => none
        else none
    | .elems first acc =>
      match skipWs cs with
      | [] => none
      | c :: rest =>
        if first && c == ']' then some (.arr acc.reverse, rest)
        else
          match parseJ fuel .value (c :: rest) with
          | none => none
          | some (v, r1) =>
            match skipWs r1 with
            | ',' :: r2 => parseJ fuel (.elems false (v :: acc)) r2
            | ']' :: r2 => some (.arr (v :: acc).reverse, r2)
            | _ => none

/-- Model of `json.loads`: parse a complete JSON document; an
`Except.error` models the raised `json.JSONDecodeError`. -/
def jsonLoads (s : String) : Except String JValue :=
  match parseJ (2 * s.length + 8) .value s.toList with
  | some (v, rest) =>
    if (skipWs rest).isEmpty then .ok v
    else .error "JSONDecodeError: Extra data"
  | none => .error "JSONDecodeError: Expecting value"

/-! ### `json.dumps`, for the `result` column -/

/-- Number printing (Python prints floats via repr; only integer values
round-trip identically — no claim inspects non-integer output). -/
def dumpNum (q : ℚ) : String :=
  if q.den = 1 then toString q.num else toString q

/-- Minimal string escaping: backslash and quote. -/
def dumpStr (s : String) : String :=
  "\"" ++ String.mk (s.toList.foldr
    (fun c acc =>
      if c == '"' then '\\' :: '"' :: acc
      else if c == '\\' then '\\' :: '\\' :: acc
      else c :: acc) []) ++ "\""

mutual

/-- Serialize a `JValue` the way `json.dumps` does (default separators). -/
def jDump : JValue → String
  | .null => "null"
  | .bool true => "true"
  | .bool false => "false"
  | .num q => dumpNum q
  | .str s => dumpStr s
  | .arr xs => "[" ++ jDumpArr xs ++ "]"
  | .obj kvs => "\x7b" ++ jDumpObj kvs ++ "\x7d"

def jDumpArr : List JValue → String
  | [] => ""
  | [x] => jDump x
  | x :: xs => jDump x ++ ", " ++ jDumpArr xs

def jDumpObj : List (String × JValue) → String
  | [] => ""
  | [kv] => dumpStr kv.1 ++ ": " ++ jDump kv.2
  | kv :: kvs => dumpStr kv.1 ++ ": " ++ jDump kv.2 ++ ", " ++ jDumpObj kvs

end

/-- `json.dumps` on a possibly-`None` payload: `None` serializes to the
four-character text `null`, never to a SQL `NULL`. -/
def jsonDumps : Option JValue → String
  | none => "null"
  | some v => jDump v

/-! ### `calculate_cost_and_tokens` (main.py lines 178–222) -/

/-- One iteration of the summation loops, cost half:
`float(item.get("cost_in_dollars", "0"))`. -/
def itemCost (item : JValue) : Except String ℚ := do
  let cv ← pyGetD item "cost_in_dollars" (.str "0")
  pyFloat cv

/-- One iteration of the summation loops, token half:
`item.get(tokenKey, 0)` added to the numeric accumulator. -/
def itemTokens (tokenKey : String) (item : JValue) : Except String ℚ := do
  let tv ← pyGetD item tokenKey (.num 0)
  pyToNum tv

/-- The loop shared by the two summations:
`total_cost += float(item.get("cost_in_dollars", "0"))` then
`total_tokens += item.get(tokenKey, 0)`, per item. -/
def sumCostTokens (tokenKey : String) :
    List JValue → ℚ → ℚ → Except String (ℚ × ℚ)
  | [], c, t => .ok (c, t)
  | item :: rest, c, t => do
    let cq ← itemCost item
    let tq ← itemTokens tokenKey item
    sumCostTokens tokenKey rest (c + cq) (t + tq)

/-- Model of `calculate_cost_and_tokens(result)`. Returns the tuple
`(total_embedding_cost, total_llm_cost, total_embedding_tokens,
total_llm_tokens)` in the order of the Python return statement; an
`Except.error` models an exception escaping the function. -/
def calculate_cost_and_tokens (result : JValue) :
    Except String (Option ℚ × Option ℚ × Option ℚ × Option ℚ) := do
  let extraction_result ← pyGetD result "extraction_result" (.arr [])
  if !truthy extraction_result then
    return (none, none, none, none)
  let first ← pyIndexZero extraction_result
  let extraction_data0 ← pyGetD first "result" (.str "")
  let extraction_data : JValue ←
    match extraction_data0 with
    | .str s =>
      if s.isEmpty then pure (JValue.obj [])
      else
        match jsonLoads s with
        | .ok v => pure v
        | .error _ => pure (JValue.obj [])
    | v => pure v
  let metadata ← pyGetD extraction_data "metadata" .null
  let embedding_llm : JValue ←
    if truthy metadata then pyGetD metadata "embedding" .null else pure .null
  let extraction_llm : JValue ←
    if truthy metadata then pyGetD metadata "extraction_llm" .null else pure .null
  let embPair : Option (ℚ × ℚ) ←
    if truthy embedding_llm then do
      let items ← pyIter embedding_llm
      let p ← sumCostTokens "embedding_tokens" items 0 0
      pure (some p)
    else pure none
  let llmPair : Option (ℚ × ℚ) ←
    if truthy extraction_llm then do
      let items ← pyIter extraction_llm
      let p ← sumCostTokens "total_tokens" items 0 0
      pure (some p)
    else pure none
  return (embPair.map (fun p => p.1), llmPair.map (fun p => p.1),
    embPair.map (fun p => p.2), llmPair.map (fun p => p.2))

/-! ### `extract_error_message` (main.py lines 225–233) -/

/-- The scan `for item in extraction_result: if "error" in item and
item["error"]: return item["error"]`. -/
def findErrorItem : List JValue → Except String (Option JValue)
  | [] => .ok none
  | item :: rest => do
    let mem ← pyContainsStr "error" item
    if mem then do
      let v ← pyIndexKey item "error"
      if truthy v then return (some v) else findErrorItem rest
    else findErrorItem rest

/-- Model of `extract_error_message(result)`: scan `extraction_result`
entries for a truthy `error` field, fall back to the top-level `error`
field, then to the fixed placeholder. -/
def extract_error_message (result : JValue) : Except String JValue := do
  let extraction_result ← pyGetD result "extraction_result" (.arr [])
  let isList : Bool := match extraction_result with | .arr _ => true | _ => false
  let items : List JValue := match extraction_result with | .arr xs => xs | _ => []
  if truthy extraction_result && isList then
    match ← findErrorItem items with
    | some v => return v
    | none => pyGetD result "error" (.str "No error message found")
  else
    pyGetD result "error" (.str "No error message found")

/-! ### The ledger: table `file_status` and `update_db` (main.py 120–175) -/

/-- One row of the `file_status` table. Column types follow the schema;
SQL `NULL` is `none`. `error_message` keeps the dynamically-typed Python
value that was bound (the source can bind a non-string there). The token
columns are rationals because Python accumulates them dynamically. -/
structure Row where
  file_name : String
  execution_status : Option String
  result : Option String
  time_taken : Option ℚ
  status_code : Option Int
  status_api_endpoint : Option String
  total_embedding_cost : Option ℚ
  total_embedding_tokens : Option ℚ
  total_llm_cost : Option ℚ
  total_llm_tokens : Option ℚ
  error_message : Option JValue
  updated_at : String
  created_at : String

/-- `SELECT ... FROM file_status WHERE file_name = ?` (the column is
UNIQUE, so the first match is the only one). -/
def lookupRow (table : List Row) (file : String) : Option Row :=
  table.find? (fun r => r.file_name == file)

/-- Lines 130–137 of `update_db`: the four derived metric columns stay
`None` unless `result` is non-null, in which case
`calculate_cost_and_tokens` computes them (and may raise). -/
def dbMetrics (result : Option JValue) :
    Except String (Option ℚ × Option ℚ × Option ℚ × Option ℚ) :=
  match result with
  | some r => calculate_cost_and_tokens r
  | none => pure (none, none, none, none)

/-- Lines 139–140 of `update_db`: when the status is `ERROR` the error
message is extracted from `result` — dereferencing it even when it is
null, which raises `AttributeError`. -/
def dbErrorMessage (execution_status : Option String) (result : Option JValue) :
    Except String (Option JValue) :=
  if execution_status == some "ERROR" then
    match result with
    | some r => do
      let v ← extract_error_message r
      pure (some v)
    | none => Except.error "AttributeError: NoneType object has no attribute get"
  else pure none

/-- The row bound by the `INSERT OR REPLACE` statement: every column
from the current call, except `created_at` which the `COALESCE(SELECT
...)` subquery copies from the existing row when there is one. -/
def mkRow (file_name : String) (execution_status : Option String)
    (result : Option JValue) (time_taken : Option ℚ) (status_code : Option Int)
    (status_api_endpoint : Option String) (now : String)
    (metrics : Option ℚ × Option ℚ × Option ℚ × Option ℚ)
    (error_message : Option JValue) (created : String) : Row :=
  { file_name := file_name
    execution_status := execution_status
    result := some (jsonDumps result)
    time_taken := time_taken
    status_code := status_code
    status_api_endpoint := status_api_endpoint
    total_embedding_cost := metrics.1
    total_llm_cost := metrics.2.1
    total_embedding_tokens := metrics.2.2.1
    total_llm_tokens := metrics.2.2.2
    error_message := error_message
    updated_at := now
    created_at := created }

/-- Model of `update_db`: compute the derived metric columns and
`error_message`, then `INSERT OR REPLACE` (delete-then-insert on the
UNIQUE `file_name`) preserving `created_at`. An `Except.error` models an
exception raised before any row is written. -/
def update_db (file_name : String) (execution_status : Option String)
    (result : Option JValue) (time_taken : Option ℚ) (status_code : Option Int)
    (status_api_endpoint : Option String) (now : String) (table : List Row) :
    Except String (List Row) := do
  let metrics ← dbMetrics result
  let error_message ← dbErrorMessage execution_status result
  let created := ((lookupRow table file_name).map (fun r => r.created_at)).getD now
  let row := mkRow file_name execution_status result time_taken status_code
    status_api_endpoint now metrics error_message created
  return table.filter (fun r => !(r.file_name == file_name)) ++ [row]

/-! ### Skip policy: `skip_file_processing` (main.py 91–116) -/

/-- The run flags consumed by the modelled core (the remaining
`Arguments` fields — endpoints, credentials, timeouts, report options —
do not influence the logic modelled here). -/
structure Arguments where
  retry_failed : Bool
  retry_pending : Bool
  skip_pending : Bool
  skip_unprocessed : Bool

/-- Model of `skip_file_processing`: decide from the stored
`execution_status` of the file (if any) and the flags. -/
def skip_file_processing (file_name : String) (args : Arguments)
    (table : List Row) : Bool :=
  match (lookupRow table file_name).map (fun r => r.execution_status) with
  | none => args.skip_unprocessed
  | some st =>
    if st == some "ERROR" then !args.retry_failed
    else if st == some "COMPLETED" then true
    else args.skip_pending

/-! ### The external API client, as an oracle -/

/-- A response dict from the external client, with the fields the driver
reads (`response.get(...)`) plus the full dict (`body`) that the driver
stores as `result`. The client library itself is outside this
repository; per the design it returns such a dict or raises. -/
structure ClientResponse where
  status_check_api_endpoint : Option String
  execution_status : Option String
  status_code : Option Int
  body : JValue

/-- Oracle for one file's interaction: the submit response and the
successive poll responses; `Except.error` models the client raising. -/
structure Client where
  submit : Except String ClientResponse
  polls : List (Except String ClientResponse)

/-- Observable actions of the driver: API calls and ledger write
attempts (recorded with the status and result payload passed). -/
inductive Event where
  | submitCall
  | statusCall (endpoint : Option String)
  | dbWrite (execution_status : Option String) (result : Option JValue)

def isSubmitCall : Event → Bool
  | .submitCall => true
  | _ => false

def isDbWrite : Event → Bool
  | .dbWrite _ _ => true
  | _ => false

/-- Successive `datetime.now()` values, as distinct opaque strings. -/
def nowStr (n : ℕ) : String := "t" ++ toString n

/-! ### `get_status_endpoint` (main.py 356–403) -/

/-- The query `SELECT status_api_endpoint FROM file_status WHERE
file_name = ? AND execution_status NOT IN ('COMPLETED', 'ERROR')`. With
SQL three-valued logic a `NULL` status never satisfies `NOT IN`. Returns
the endpoint column of the matching row, if any. -/
def pendingEndpointQuery (table : List Row) (file : String) :
    Option (Option String) :=
  (table.find? (fun r => r.file_name == file &&
      (match r.execution_status with
       | some s => !(s == "COMPLETED") && !(s == "ERROR")
       | none => false))).map
    (fun r => r.status_api_endpoint)

/-- The `status_endpoint` read back by the query at the top of
`get_status_endpoint` (`None` when no non-terminal row exists, or when
the matching row stores a `NULL` endpoint). -/
def storedEndpoint (table : List Row) (file : String) : Option String :=
  match pendingEndpointQuery table file with
  | some ep => ep
  | none => none

/-- Python truthiness of the `status_endpoint` variable (`None` and the
empty string are falsy). -/
def truthyOptStr : Option String → Bool
  | some s => !s.isEmpty
  | none => false

/-- Outcome of `get_status_endpoint`: the table and event trace after
the call, and either its return triple `(status_endpoint,
execution_status, response)` or the exception it raised. -/
structure GseResult where
  table : List Row
  trace : List Event
  ret : Except String (Option String × Option String × Option ClientResponse)

/-- Model of `get_status_endpoint`: reuse a stored non-terminal status
endpoint unless `retry_pending` discards it; otherwise write a STARTING
record, call the submit API, and record its outcome. -/
def get_status_endpoint (file : String) (submit : Except String ClientResponse)
    (args : Arguments) (now1 now2 : String) (table : List Row) : GseResult :=
  let stored := storedEndpoint table file
  let status_endpoint := if args.retry_pending then none else stored
  if truthyOptStr status_endpoint then
    { table := table, trace := [], ret := .ok (status_endpoint, some "PENDING", none) }
  else
    let trace1 := [Event.dbWrite (some "STARTING") none]
    match update_db file (some "STARTING") none none none none now1 table with
    | .error e => { table := table, trace := trace1, ret := .error e }
    | .ok t1 =>
      let trace2 := trace1 ++ [Event.submitCall]
      match submit with
      | .error e => { table := t1, trace := trace2, ret := .error e }
      | .ok r =>
        let trace3 := trace2 ++ [Event.dbWrite r.execution_status (some r.body)]
        match update_db file r.execution_status (some r.body) none r.status_code
            r.status_check_api_endpoint now2 t1 with
        | .error e => { table := t1, trace := trace3, ret := .error e }
        | .ok t2 =>
          { table := t2, trace := trace3,
            ret := .ok (r.status_check_api_endpoint, r.execution_status, some r) }

/-! ### `process_file` (main.py 406–463) -/

/-- How the poll loop of `process_file` ends: the oracle ran out of
responses while non-terminal (the source would poll forever), an
exception to be caught by the driver's handler, or a terminal status. -/
inductive PollOut where
  | hung (table : List Row) (trace : List Event)
  | exc (e : String) (status_code : Option Int) (table : List Row) (trace : List Event)
  | done (execution_status : Option String) (lastResp : Option ClientResponse)
      (status_code : Option Int) (table : List Row) (trace : List Event)

/-- The `while execution_status not in ["COMPLETED", "ERROR"]` loop:
sleep (not modelled), check status, record the new status with a null
result. `status_code` carries the last value assigned to the loop-local
variable. -/
def isTerminalStatus (status : Option String) : Bool :=
  status == some "COMPLETED" || status == some "ERROR"

def poll_loop (file : String) (endpoint : Option String) (clock : ℕ)
    (polls : List (Except String ClientResponse)) (status : Option String)
    (status_code : Option Int) (lastResp : Option ClientResponse)
    (table : List Row) (trace : List Event) : PollOut :=
  if isTerminalStatus status then
    .done status lastResp status_code table trace
  else
    match polls with
    | [] => .hung table trace
    | p :: rest =>
      let trace1 := trace ++ [Event.statusCall endpoint]
      match p with
      | .error e => .exc e status_code table trace1
      | .ok r =>
        let status2 := r.execution_status
        let sc2 := r.status_code
        let trace2 := trace1 ++ [Event.dbWrite status2 none]
        match update_db file status2 none none sc2 endpoint (nowStr clock) table with
        | .error e => .exc e sc2 table trace2
        | .ok t2 => poll_loop file endpoint (clock + 1) rest status2 sc2 (some r) t2 trace2

/-- Per-file outcome, i.e. which shared counter the worker increments. -/
inductive Outcome where
  | succeeded
  | failed
  | skipped
deriving DecidableEq

/-- Result of one driver invocation: the counter incremented (`none`
when the poll oracle was exhausted — the source would block forever, so
no counter moves), an exception escaping `process_file` (only the final
`update_db`, which runs outside the `try`, can produce one — the counter
is incremented before it), the final table and the event trace. -/
structure PFResult where
  outcome : Option Outcome
  escaped : Option String
  table : List Row
  trace : List Event

/-- The dict the exception handler builds as the terminal result. -/
def errObj (e : String) : JValue := .obj [("error", .str e)]

/-- The final `update_db` call after the `try`/`except` (main.py
458–462): it may itself raise, which escapes `process_file`. -/
def finalWrite (file : String) (status : Option String) (result : Option JValue)
    (elapsed : ℚ) (sc : Option Int) (ep : Option String) (oc : Option Outcome)
    (table : List Row) (trace : List Event) : PFResult :=
  let trace2 := trace ++ [Event.dbWrite status result]
  match update_db file status result (some elapsed) sc ep (nowStr 99) table with
  | .ok t2 => { outcome := oc, escaped := none, table := t2, trace := trace2 }
  | .error e2 => { outcome := oc, escaped := some e2, table := table, trace := trace2 }

/-- Model of `process_file`: skip check, then submit-or-resume, poll to
terminal, with every client exception caught and mapped to a terminal
ERROR write; `elapsed` stands for the measured wall-clock time. -/
def process_file (file : String) (client : Client) (args : Arguments)
    (elapsed : ℚ) (table : List Row) : PFResult :=
  if skip_file_processing file args table then
    { outcome := some .skipped, escaped := none, table := table, trace := [] }
  else
    let gse := get_status_endpoint file client.submit args (nowStr 0) (nowStr 1) table
    match gse.ret with
    | .error e =>
      finalWrite file (some "ERROR") (some (errObj e)) elapsed none none
        (some .failed) gse.table gse.trace
    | .ok (ep, status, resp) =>
      match poll_loop file ep 2 client.polls status none resp gse.table gse.trace with
      | .hung t tr => { outcome := none, escaped := none, table := t, trace := tr }
      | .exc e sc t tr =>
        finalWrite file (some "ERROR") (some (errObj e)) elapsed sc ep
          (some .failed) t tr
      | .done st lastResp sc t tr =>
        finalWrite file st (lastResp.map (fun r => r.body)) elapsed sc ep
          (some .succeeded) t tr

/-! ### The dispatcher: `load_folder` counters (main.py 466–506)

The worker pool is modelled as a sequential fold in completion order;
the three shared `Manager` counters become the accumulator. `hung`
counts files whose poll oracle never reported a terminal status (in the
source such a worker blocks forever and the run never ends). -/

structure Counters where
  succeeded : ℕ
  failed : ℕ
  skipped : ℕ

def incCounters (c : Counters) : Outcome → Counters
  | .succeeded => { c with succeeded := c.succeeded + 1 }
  | .failed => { c with failed := c.failed + 1 }
  | .skipped => { c with skipped := c.skipped + 1 }

/-- Run the driver over each file, threading the shared ledger and
counters. -/
def runFiles (clients : String → Client) (args : Arguments) (elapsed : ℚ) :
    List String → Counters → ℕ → List Row → Counters × ℕ × List Row
  | [], c, hung, t => (c, hung, t)
  | f :: fs, c, hung, t =>
    let r := process_file f (clients f) args elapsed t
    match r.outcome with
    | some o => runFiles clients args elapsed fs (incCounters c o) hung r.table
    | none => runFiles clients args elapsed fs c (hung + 1) r.table

/-- Model of `load_folder`: process every enumerated file and aggregate
the run counters. -/
def load_folder (files : List String) (clients : String → Client)
    (args : Arguments) (elapsed : ℚ) (table0 : List Row) :
    Counters × ℕ × List Row :=
  runFiles clients args elapsed files ⟨0, 0, 0⟩ 0 table0

/-! ### Derived views and fixtures used by the statements below -/

instance {ε α : Type _} [DecidableEq ε] [DecidableEq α] :
    DecidableEq (Except ε α) := fun x y =>
  match x, y with
  | .ok a, .ok b =>
    if h : a = b then isTrue (by rw [h])
    else isFalse (fun c => by cases c; exact h rfl)
  | .error a, .error b =>
    if h : a = b then isTrue (by rw [h])
    else isFalse (fun c => by cases c; exact h rfl)
  | .ok _, .error _ => isFalse (fun c => by cases c)
  | .error _, .ok _ => isFalse (fun c => by cases c)

/-- The `metadata` object fields for a payload carrying the given
`embedding` and `extraction_llm` lists (absent when `none`). -/
def metaFields : Option (List JValue) → Option (List JValue) →
    List (String × JValue)
  | some e, some l => [("embedding", .arr e), ("extraction_llm", .arr l)]
  | some e, none => [("embedding", .arr e)]
  | none, some l => [("extraction_llm", .arr l)]
  | none, none => []

/-- A terminal result payload whose first `extraction_result` entry
carries its `metadata` directly (the source accepts both an
already-decoded object and a JSON-encoded string there). -/
def mkMetaPayload (emb llm : Option (List JValue)) : JValue :=
  .obj [("extraction_result", .arr [.obj [("result",
    .obj [("metadata", .obj (metaFields emb llm))])]])]

/-- The event trace carried by a `PollOut`, whichever way the loop
ended. -/
def PollOut.traceOf : PollOut → List Event
  | .hung _ tr => tr
  | .exc _ _ _ tr => tr
  | .done _ _ _ _ tr => tr

/-- An embedding entry with cost `"0.01"` and 10 tokens (§8 round-trip
fixture). -/
def embEntry1 : JValue :=
  .obj [("cost_in_dollars", .str "0.01"), ("embedding_tokens", .num 10)]

/-- An embedding entry with cost `"0.02"` and 20 tokens (§8 round-trip
fixture). -/
def embEntry2 : JValue :=
  .obj [("cost_in_dollars", .str "0.02"), ("embedding_tokens", .num 20)]

/-- The §8 round-trip payload: two embedding entries, no
`extraction_llm` entries. -/
def roundTripPayload : JValue := mkMetaPayload (some [embEntry1, embEntry2]) none

/-- A payload whose first `extraction_result` entry has a numeric
`result` field: the source then calls `.get` on a number and raises. -/
def shapeErrPayload : JValue :=
  .obj [("extraction_result", .arr [.obj [("result", .num 5)]])]

/-- A ledger row left PENDING with an empty-string (non-null!) resume
handle stored. -/
def emptyHandleRow : Row :=
  { file_name := "f"
    execution_status := some "PENDING"
    result := some "null"
    time_taken := none
    status_code := none
    status_api_endpoint := some ""
    total_embedding_cost := none
    total_embedding_tokens := none
    total_llm_cost := none
    total_llm_tokens := none
    error_message := none
    updated_at := "t"
    created_at := "t" }

/-- A ledger row left PENDING with a usable resume handle stored. -/
def pendingRow : Row :=
  { emptyHandleRow with status_api_endpoint := some "ep" }

/-- A ledger row for file `g` left in ERROR state. -/
def errorRowG : Row :=
  { emptyHandleRow with file_name := "g", execution_status := some "ERROR" }

/-- A submit response that resolved to PENDING with a status endpoint. -/
def pendResp : ClientResponse :=
  { status_check_api_endpoint := some "ep"
    execution_status := some "PENDING"
    status_code := some 200
    body := .obj [("execution_status", .str "PENDING")] }

/-- A poll response reporting COMPLETED. -/
def doneResp : ClientResponse :=
  { status_check_api_endpoint := none
    execution_status := some "COMPLETED"
    status_code := some 200
    body := .obj [("x", .num 1)] }

/-- A poll response reporting ERROR (with no payload, as in the poll
loop's intermediate writes). -/
def errResp : ClientResponse :=
  { status_check_api_endpoint := none
    execution_status := some "ERROR"
    status_code := some 500
    body := .null }

/-- A client whose submission goes PENDING and whose first status check
reports ERROR: the poll loop then calls `update_db` with status `ERROR`
and a null result. -/
def errPollClient : Client := { submit := .ok pendResp, polls := [.ok errResp] }

/-- A client whose submission goes PENDING and whose first status check
reports COMPLETED. -/
def okClient : Client := { submit := .ok pendResp, polls := [.ok doneResp] }

/-- The run flags with everything off. -/
def noFlags : Arguments := ⟨false, false, false, false⟩

/-! ## Helper lemmas -/

theorem ebind_ok {ε α β : Type _} (a : α) (f : α → Except ε β) :
    (do let x ← Except.ok a; f x) = f a := rfl

theorem ebind_err {ε α β : Type _} (e : ε) (f : α → Except ε β) :
    (do let x ← (Except.error e : Except ε α); f x) = Except.error e := rfl

/-- After an upsert for key `k`, looking `k` up finds exactly the row
just written. -/
theorem lookupRow_upsert (table : List Row) (row : Row) (k : String)
    (h : row.file_name = k) :
    lookupRow (table.filter (fun r => !(r.file_name == k)) ++ [row]) k =
      some row := by
  induction table with
  | nil => simp [lookupRow, List.find?, h]
  | cons r t ih =>
    rcases eq_or_ne r.file_name k with hr | hr
    · simpa [List.filter_cons, hr] using ih
    · have hb : (r.file_name == k) = false := beq_eq_false_iff_ne.mpr hr
      simp only [lookupRow, List.filter_cons, hb, Bool.not_false, if_pos rfl]
      simpa [lookupRow, List.find?_cons, hb] using ih

/-- After an upsert for key `k`, exactly one row with that key exists. -/
theorem countRow_upsert (table : List Row) (row : Row) (k : String)
    (h : row.file_name = k) :
    ((table.filter (fun r => !(r.file_name == k)) ++ [row]).filter
      (fun r => r.file_name == k)).length = 1 := by
  rw [List.filter_append]
  have h1 : ∀ l : List Row,
      (l.filter (fun r => !(r.file_name == k))).filter
        (fun r => r.file_name == k) = [] := by
    intro l
    induction l with
    | nil => rfl
    | cons r t ih =>
      cases hb : (r.file_name == k) <;>
        simp [List.filter_cons, hb, ih]
  rw [h1]
  simp [List.filter, h]

/-- A successful `update_db` is exactly the delete-then-insert of the
row built from this call's arguments. -/
theorem update_db_ok_elim {f : String} {st : Option String} {res : Option JValue}
    {tt : Option ℚ} {sc : Option Int} {ep : Option String} {now : String}
    {table t2 : List Row}
    (h : update_db f st res tt sc ep now table = .ok t2) :
    ∃ m em, dbMetrics res = .ok m ∧ dbErrorMessage st res = .ok em ∧
      t2 = table.filter (fun r => !(r.file_name == f)) ++
        [mkRow f st res tt sc ep now m em
          (((lookupRow table f).map (fun r => r.created_at)).getD now)] := by
  unfold update_db at h
  cases hm : dbMetrics res with
  | error e => rw [hm, ebind_err] at h; exact Except.noConfusion h
  | ok m =>
    rw [hm, ebind_ok] at h
    cases he : dbErrorMessage st res with
    | error e => rw [he, ebind_err] at h; exact Except.noConfusion h
    | ok em =>
      rw [he, ebind_ok] at h
      injection h with h2
      exact ⟨m, em, rfl, rfl, h2.symm⟩

/-- A write with a null result and a status other than ERROR always
succeeds (nothing fallible remains). -/
theorem update_db_none_ok (f : String) (st : Option String) (tt : Option ℚ)
    (sc : Option Int) (ep : Option String) (now : String) (table : List Row)
    (h : st ≠ some "ERROR") :
    update_db f st none tt sc ep now table =
      .ok (table.filter (fun r => !(r.file_name == f)) ++
        [mkRow f st none tt sc ep now (none, none, none, none) none
          (((lookupRow table f).map (fun r => r.created_at)).getD now)]) := by
  have hb : (st == some "ERROR") = false := beq_eq_false_iff_ne.mpr h
  unfold update_db dbMetrics dbErrorMessage
  rw [hb]
  rfl

/-- The exception handler's terminal write always succeeds: metrics stay
null (no `extraction_result` key) and the message is recovered from the
top-level `error` key. -/
theorem update_db_errObj_ok (f e : String) (tt : Option ℚ) (sc : Option Int)
    (ep : Option String) (now : String) (table : List Row) :
    update_db f (some "ERROR") (some (errObj e)) tt sc ep now table =
      .ok (table.filter (fun r => !(r.file_name == f)) ++
        [mkRow f (some "ERROR") (some (errObj e)) tt sc ep now
          (none, none, none, none) (some (.str e))
          (((lookupRow table f).map (fun r => r.created_at)).getD now)]) := rfl

/-- Unfolding `finalWrite` on the exception handler's payload: it never
escapes, and leaves the terminal ERROR row with a non-null message. -/
theorem finalWrite_errObj (file e : String) (elapsed : ℚ) (sc : Option Int)
    (ep : Option String) (oc : Option Outcome) (table : List Row)
    (trace : List Event) :
    finalWrite file (some "ERROR") (some (errObj e)) elapsed sc ep oc table trace =
      { outcome := oc
        escaped := none
        table := table.filter (fun r => !(r.file_name == file)) ++
          [mkRow file (some "ERROR") (some (errObj e)) (some elapsed) sc ep
            (nowStr 99) (none, none, none, none) (some (.str e))
            (((lookupRow table file).map (fun r => r.created_at)).getD (nowStr 99))]
        trace := trace ++ [Event.dbWrite (some "ERROR") (some (errObj e))] } := by
  unfold finalWrite
  rw [update_db_errObj_ok]

/-- Unfolding the poll loop when the current status is terminal. -/
theorem poll_loop_term_step (file : String) (ep : Option String) (clock : ℕ)
    (polls : List (Except String ClientResponse)) (status : Option String)
    (sc : Option Int) (lastResp : Option ClientResponse) (table : List Row)
    (trace : List Event) (ht : isTerminalStatus status = true) :
    poll_loop file ep clock polls status sc lastResp table trace =
      .done status lastResp sc table trace := by
  conv_lhs => unfold poll_loop
  rw [ht]
  with_unfolding_all rfl

/-- Unfolding the poll loop when the oracle is exhausted. -/
theorem poll_loop_nil_step (file : String) (ep : Option String) (clock : ℕ)
    (status : Option String) (sc : Option Int) (lastResp : Option ClientResponse)
    (table : List Row) (trace : List Event)
    (ht : isTerminalStatus status = false) :
    poll_loop file ep clock [] status sc lastResp table trace =
      .hung table trace := by
  conv_lhs => unfold poll_loop
  rw [ht]
  with_unfolding_all rfl

/-- Unfolding one non-terminal iteration of the poll loop. -/
theorem poll_loop_cons_step (file : String) (ep : Option String) (clock : ℕ)
    (p : Except String ClientResponse)
    (rest : List (Except String ClientResponse)) (status : Option String)
    (sc : Option Int) (lastResp : Option ClientResponse) (table : List Row)
    (trace : List Event) (ht : isTerminalStatus status = false) :
    poll_loop file ep clock (p :: rest) status sc lastResp table trace =
      (match p with
       | .error e => .exc e sc table (trace ++ [Event.statusCall ep])
       | .ok r =>
         match update_db file r.execution_status none none r.status_code ep
             (nowStr clock) table with
         | .error e => .exc e r.status_code table
             (trace ++ [Event.statusCall ep] ++ [Event.dbWrite r.execution_status none])
         | .ok t2 => poll_loop file ep (clock + 1) rest r.execution_status
             r.status_code (some r) t2
             (trace ++ [Event.statusCall ep] ++ [Event.dbWrite r.execution_status none])) := by
  conv_lhs => unfold poll_loop
  rw [ht]
  with_unfolding_all rfl

/-- Unfolding one iteration when the status check raises. -/
theorem poll_loop_step_perr (file : String) (ep : Option String) (clock : ℕ)
    (e : String) (rest : List (Except String ClientResponse))
    (status : Option String) (sc : Option Int) (lastResp : Option ClientResponse)
    (table : List Row) (trace : List Event)
    (ht : isTerminalStatus status = false) :
    poll_loop file ep clock (.error e :: rest) status sc lastResp table trace =
      .exc e sc table (trace ++ [Event.statusCall ep]) := by
  rw [poll_loop_cons_step _ _ _ _ _ _ _ _ _ _ ht]

/-- Unfolding one iteration when the status check answers but the
intermediate ledger write raises. -/
theorem poll_loop_step_pok_err (file : String) (ep : Option String) (clock : ℕ)
    (r : ClientResponse) (rest : List (Except String ClientResponse))
    (status : Option String) (sc : Option Int) (lastResp : Option ClientResponse)
    (table : List Row) (trace : List Event) (e2 : String)
    (ht : isTerminalStatus status = false)
    (hupd : update_db file r.execution_status none none r.status_code ep
      (nowStr clock) table = .error e2) :
    poll_loop file ep clock (.ok r :: rest) status sc lastResp table trace =
      .exc e2 r.status_code table
        (trace ++ [Event.statusCall ep] ++
          [Event.dbWrite r.execution_status none]) := by
  rw [poll_loop_cons_step _ _ _ _ _ _ _ _ _ _ ht]
  show (match update_db file r.execution_status none none r.status_code ep
      (nowStr clock) table with
    | .error e => PollOut.exc e r.status_code table
        (trace ++ [Event.statusCall ep] ++ [Event.dbWrite r.execution_status none])
    | .ok t2 => poll_loop file ep (clock + 1) rest r.execution_status
        r.status_code (some r) t2
        (trace ++ [Event.statusCall ep] ++
          [Event.dbWrite r.execution_status none])) = _
  rw [hupd]

/-- Unfolding one full non-terminal iteration (status check answered,
intermediate write succeeded). -/
theorem poll_loop_step_pok_ok (file : String) (ep : Option String) (clock : ℕ)
    (r : ClientResponse) (rest : List (Except String ClientResponse))
    (status : Option String) (sc : Option Int) (lastResp : Option ClientResponse)
    (table : List Row) (trace : List Event) (t2 : List Row)
    (ht : isTerminalStatus status = false)
    (hupd : update_db file r.execution_status none none r.status_code ep
      (nowStr clock) table = .ok t2) :
    poll_loop file ep clock (.ok r :: rest) status sc lastResp table trace =
      poll_loop file ep (clock + 1) rest r.execution_status r.status_code
        (some r) t2
        (trace ++ [Event.statusCall ep] ++
          [Event.dbWrite r.execution_status none]) := by
  rw [poll_loop_cons_step _ _ _ _ _ _ _ _ _ _ ht]
  show (match update_db file r.execution_status none none r.status_code ep
      (nowStr clock) table with
    | .error e => PollOut.exc e r.status_code table
        (trace ++ [Event.statusCall ep] ++ [Event.dbWrite r.execution_status none])
    | .ok t2 => poll_loop file ep (clock + 1) rest r.execution_status
        r.status_code (some r) t2
        (trace ++ [Event.statusCall ep] ++
          [Event.dbWrite r.execution_status none])) = _
  rw [hupd]

/-- The poll loop never issues a submit call: if the incoming trace has
none, neither does the outgoing one. -/
theorem poll_loop_no_submit (file : String) (ep : Option String) (clock : ℕ)
    (polls : List (Except String ClientResponse)) (status : Option String)
    (sc : Option Int) (lastResp : Option ClientResponse) (table : List Row)
    (trace : List Event) (h : trace.filter isSubmitCall = []) :
    ((poll_loop file ep clock polls status sc lastResp table trace).traceOf.filter
      isSubmitCall) = [] := by
  induction polls generalizing clock status sc lastResp table trace with
  | nil =>
    cases ht : isTerminalStatus status with
    | true => rw [poll_loop_term_step _ _ _ _ _ _ _ _ _ ht]; exact h
    | false => rw [poll_loop_nil_step _ _ _ _ _ _ _ _ ht]; exact h
  | cons p rest ih =>
    cases ht : isTerminalStatus status with
    | true => rw [poll_loop_term_step _ _ _ _ _ _ _ _ _ ht]; exact h
    | false =>
      cases p with
      | error e =>
        rw [poll_loop_step_perr _ _ _ _ _ _ _ _ _ _ ht]
        simp [PollOut.traceOf, List.filter_append, h, isSubmitCall]
      | ok r =>
        cases hupd : update_db file r.execution_status none none r.status_code ep
            (nowStr clock) table with
        | error e2 =>
          rw [poll_loop_step_pok_err _ _ _ _ _ _ _ _ _ _ _ ht hupd]
          simp [PollOut.traceOf, List.filter_append, h, isSubmitCall]
        | ok t2 =>
          rw [poll_loop_step_pok_ok _ _ _ _ _ _ _ _ _ _ _ ht hupd]
          exact ih _ _ _ _ _ _
            (by simp [List.filter_append, h, isSubmitCall])

/-- The poll loop exits as `.done` only with a terminal status. -/
theorem poll_loop_done_terminal (file : String) (ep : Option String) (clock : ℕ)
    (polls : List (Except String ClientResponse)) (status : Option String)
    (sc : Option Int) (lastResp : Option ClientResponse) (table : List Row)
    (trace : List Event) {st : Option String} {lr : Option ClientResponse}
    {sc2 : Option Int} {t2 : List Row} {tr2 : List Event}
    (h : poll_loop file ep clock polls status sc lastResp table trace =
      .done st lr sc2 t2 tr2) :
    st = some "COMPLETED" ∨ st = some "ERROR" := by
  induction polls generalizing clock status sc lastResp table trace with
  | nil =>
    cases ht : isTerminalStatus status with
    | true =>
      rw [poll_loop_term_step _ _ _ _ _ _ _ _ _ ht] at h
      injection h with h1 h2 h3 h4 h5
      subst h1
      simpa [isTerminalStatus, beq_iff_eq] using ht
    | false =>
      rw [poll_loop_nil_step _ _ _ _ _ _ _ _ ht] at h
      exact PollOut.noConfusion h
  | cons p rest ih =>
    cases ht : isTerminalStatus status with
    | true =>
      rw [poll_loop_term_step _ _ _ _ _ _ _ _ _ ht] at h
      injection h with h1 h2 h3 h4 h5
      subst h1
      simpa [isTerminalStatus, beq_iff_eq] using ht
    | false =>
      cases p with
      | error e =>
        rw [poll_loop_step_perr _ _ _ _ _ _ _ _ _ _ ht] at h
        exact PollOut.noConfusion h
      | ok r =>
        cases hupd : update_db file r.execution_status none none r.status_code ep
            (nowStr clock) table with
        | error e2 =>
          rw [poll_loop_step_pok_err _ _ _ _ _ _ _ _ _ _ _ ht hupd] at h
          exact PollOut.noConfusion h
        | ok t3 =>
          rw [poll_loop_step_pok_ok _ _ _ _ _ _ _ _ _ _ _ ht hupd] at h
          exact ih _ _ _ _ _ _ h

/-- A `.done` exit either happened immediately (status already terminal,
table untouched) or right after an intermediate write of the terminal
status, which the lookup then finds. -/
theorem poll_loop_done_cases (file : String) (ep : Option String) (clock : ℕ)
    (polls : List (Except String ClientResponse)) (status : Option String)
    (sc : Option Int) (lastResp : Option ClientResponse) (table : List Row)
    (trace : List Event) {st : Option String} {lr : Option ClientResponse}
    {sc2 : Option Int} {t2 : List Row} {tr2 : List Event}
    (h : poll_loop file ep clock polls status sc lastResp table trace =
      .done st lr sc2 t2 tr2) :
    (st = status ∧ t2 = table) ∨
      ∃ r, lookupRow t2 file = some r ∧ r.execution_status = st := by
  induction polls generalizing clock status sc lastResp table trace with
  | nil =>
    cases ht : isTerminalStatus status with
    | true =>
      rw [poll_loop_term_step _ _ _ _ _ _ _ _ _ ht] at h
      injection h with h1 h2 h3 h4 h5
      exact Or.inl ⟨h1.symm, h4.symm⟩
    | false =>
      rw [poll_loop_nil_step _ _ _ _ _ _ _ _ ht] at h
      exact PollOut.noConfusion h
  | cons p rest ih =>
    cases ht : isTerminalStatus status with
    | true =>
      rw [poll_loop_term_step _ _ _ _ _ _ _ _ _ ht] at h
      injection h with h1 h2 h3 h4 h5
      exact Or.inl ⟨h1.symm, h4.symm⟩
    | false =>
      cases p with
      | error e =>
        rw [poll_loop_step_perr _ _ _ _ _ _ _ _ _ _ ht] at h
        exact PollOut.noConfusion h
      | ok r =>
        cases hupd : update_db file r.execution_status none none r.status_code ep
            (nowStr clock) table with
        | error e2 =>
          rw [poll_loop_step_pok_err _ _ _ _ _ _ _ _ _ _ _ ht hupd] at h
          exact PollOut.noConfusion h
        | ok t3 =>
          rw [poll_loop_step_pok_ok _ _ _ _ _ _ _ _ _ _ _ ht hupd] at h
          rcases ih _ _ _ _ _ _ h with ⟨h1, h2⟩ | ⟨r2, hr2, hst2⟩
          · subst h1
            subst h2
            obtain ⟨m, em, _, _, ht3⟩ := update_db_ok_elim hupd
            subst ht3
            exact Or.inr ⟨_, lookupRow_upsert _ _ _ rfl, rfl⟩
          · exact Or.inr ⟨r2, hr2, hst2⟩

/-- Driving the loop from a non-terminal status through non-terminal
poll responses into a client exception: the loop raises that exception
(to be caught by the driver). -/
theorem poll_loop_nonterminal_exc (file : String) (ep : Option String)
    (clock : ℕ) (ps : List ClientResponse) (e : String) (status : Option String)
    (sc : Option Int) (lastResp : Option ClientResponse) (table : List Row)
    (trace : List Event)
    (hs1 : status ≠ some "COMPLETED") (hs2 : status ≠ some "ERROR")
    (hall : ∀ x ∈ ps, x.execution_status ≠ some "COMPLETED" ∧
      x.execution_status ≠ some "ERROR") :
    ∃ sc2 t2 tr2,
      poll_loop file ep clock (ps.map .ok ++ [.error e]) status sc lastResp
        table trace = .exc e sc2 t2 tr2 := by
  induction ps generalizing clock status sc lastResp table trace with
  | nil =>
    have hb : isTerminalStatus status = false := by
      unfold isTerminalStatus
      rw [beq_eq_false_iff_ne.mpr hs1, beq_eq_false_iff_ne.mpr hs2]
      rfl
    rw [List.map_nil, List.nil_append,
      poll_loop_step_perr _ _ _ _ _ _ _ _ _ _ hb]
    exact ⟨sc, table, trace ++ [Event.statusCall ep], rfl⟩
  | cons x xs ih =>
    have hb : isTerminalStatus status = false := by
      unfold isTerminalStatus
      rw [beq_eq_false_iff_ne.mpr hs1, beq_eq_false_iff_ne.mpr hs2]
      rfl
    have hx := hall x (by simp)
    rw [List.map_cons, List.cons_append,
      poll_loop_step_pok_ok _ _ _ _ _ _ _ _ _ _ _ hb
        (update_db_none_ok file x.execution_status none x.status_code ep
          (nowStr clock) table hx.2)]
    exact ih _ _ _ _ _ _ hx.1 hx.2 (fun y hy => hall y (by simp [hy]))

/-- When the plain lookup for a file finds a row satisfying the
non-terminal condition, the pending-endpoint query returns that row's
endpoint column. -/
theorem pendingEndpointQuery_of_lookup (table : List Row) (file : String)
    (r0 : Row) (hr : lookupRow table file = some r0)
    (hmatch : (match r0.execution_status with
      | some s => !(s == "COMPLETED") && !(s == "ERROR")
      | none => false) = true) :
    pendingEndpointQuery table file = some r0.status_api_endpoint := by
  induction table with
  | nil => exact Option.noConfusion hr
  | cons r t ih =>
    cases hb : (r.file_name == file) with
    | true =>
      have hr0 : r = r0 := by
        have h2 := hr
        unfold lookupRow at h2
        rw [show List.find? (fun r2 : Row => r2.file_name == file) (r :: t) =
          some r from List.find?_cons_of_pos t hb] at h2
        exact Option.some.inj h2
      subst hr0
      unfold pendingEndpointQuery
      rw [show List.find? (fun r2 : Row => r2.file_name == file &&
            (match r2.execution_status with
             | some s => !(s == "COMPLETED") && !(s == "ERROR")
             | none => false)) (r :: t) = some r from
          List.find?_cons_of_pos t (by rw [hb, hmatch]; rfl)]
      rfl
    | false =>
      have hr2 : lookupRow t file = some r0 := by
        have h2 := hr
        unfold lookupRow at h2
        rw [show List.find? (fun r2 : Row => r2.file_name == file) (r :: t) =
          List.find? (fun r2 : Row => r2.file_name == file) t from
          List.find?_cons_of_neg t (by simp [hb])] at h2
        exact h2
      have hq := ih hr2
      unfold pendingEndpointQuery at hq ⊢
      rw [show List.find? (fun r2 : Row => r2.file_name == file &&
            (match r2.execution_status with
             | some s => !(s == "COMPLETED") && !(s == "ERROR")
             | none => false)) (r :: t) =
          List.find? (fun r2 : Row => r2.file_name == file &&
            (match r2.execution_status with
             | some s => !(s == "COMPLETED") && !(s == "ERROR")
             | none => false)) t from
          List.find?_cons_of_neg t (by simp [hb])]
      exact hq

/-- The skip policy lets a non-terminal file through when
`skip_pending` is off. -/
theorem skip_false_of_nonterminal (file : String) (args : Arguments)
    (table : List Row) (r0 : Row) (st0 : String)
    (hr : lookupRow table file = some r0) (hst : r0.execution_status = some st0)
    (h1 : st0 ≠ "ERROR") (h2 : st0 ≠ "COMPLETED")
    (hsp : args.skip_pending = false) :
    skip_file_processing file args table = false := by
  simp [skip_file_processing, hr, hst, hsp, beq_iff_eq, h1, h2]

/-- With `retry_pending` off and a truthy stored endpoint,
`get_status_endpoint` returns it as PENDING without any API call or
ledger write. -/
theorem gse_retained (file h : String) (submit : Except String ClientResponse)
    (args : Arguments) (now1 now2 : String) (table : List Row)
    (hq : pendingEndpointQuery table file = some (some h)) (hne : h ≠ "")
    (hrp : args.retry_pending = false) :
    get_status_endpoint file submit args now1 now2 table =
      ⟨table, [], .ok (some h, some "PENDING", none)⟩ := by
  have hstored : storedEndpoint table file = some h := by
    unfold storedEndpoint
    rw [hq]
  have hbe : truthyOptStr (some h) = true := by
    unfold truthyOptStr
    cases hh : h.isEmpty with
    | true => exact absurd (String.isEmpty_iff h |>.mp hh) hne
    | false => simp [hh]
  simp only [get_status_endpoint, hstored, hrp, Bool.false_eq_true, if_false, hbe,
    if_true]

/-- With no retained endpoint and a raising submit call, the driver
writes STARTING, calls submit, and the exception propagates out of
`get_status_endpoint` (to the driver's handler). -/
theorem gse_fresh_submit_err (file e : String) (args : Arguments)
    (now1 now2 : String) (table : List Row)
    (hf : truthyOptStr (if args.retry_pending then none
      else storedEndpoint table file) = false) :
    get_status_endpoint file (.error e) args now1 now2 table =
      ⟨table.filter (fun r => !(r.file_name == file)) ++
        [mkRow file (some "STARTING") none none none none now1
          (none, none, none, none) none
          (((lookupRow table file).map (fun r => r.created_at)).getD now1)],
       [Event.dbWrite (some "STARTING") none, Event.submitCall], .error e⟩ := by
  simp only [get_status_endpoint, hf, Bool.false_eq_true, if_false,
    update_db_none_ok file (some "STARTING") none none none now1 table
      (by simp)]
  rfl

/-- Whatever the final `update_db` does, `finalWrite` records the write
attempt and keeps the outcome; the write either lands (no escape) or
raises (escapes, table untouched). -/
theorem finalWrite_cases (file : String) (status : Option String)
    (result : Option JValue) (elapsed : ℚ) (sc : Option Int) (ep : Option String)
    (oc : Option Outcome) (table : List Row) (trace : List Event) :
    (∃ t2, update_db file status result (some elapsed) sc ep (nowStr 99) table =
        .ok t2 ∧
      finalWrite file status result elapsed sc ep oc table trace =
        ⟨oc, none, t2, trace ++ [Event.dbWrite status result]⟩) ∨
    (∃ e2, update_db file status result (some elapsed) sc ep (nowStr 99) table =
        .error e2 ∧
      finalWrite file status result elapsed sc ep oc table trace =
        ⟨oc, some e2, table, trace ++ [Event.dbWrite status result]⟩) := by
  cases hu : update_db file status result (some elapsed) sc ep (nowStr 99) table with
  | ok t2 =>
    refine Or.inl ⟨t2, rfl, ?_⟩
    unfold finalWrite
    rw [hu]
  | error e2 =>
    refine Or.inr ⟨e2, rfl, ?_⟩
    unfold finalWrite
    rw [hu]

/-! ## The claims -/

/-- C1: for every file key and every combination of the four flags, the
skip decision is total (it is a Lean function) and returns exactly the
§4.2 table: no record → skip iff `skip_unprocessed`; ERROR → skip iff
`retry_failed` not set; COMPLETED → always skip; any other stored status
→ skip iff `skip_pending`. -/
theorem skip_policy_matches_table (file : String) (args : Arguments)
    (table : List Row) :
    (lookupRow table file = none →
      skip_file_processing file args table = args.skip_unprocessed) ∧
    ∀ r, lookupRow table file = some r →
      (r.execution_status = some "ERROR" →
        skip_file_processing file args table = !args.retry_failed) ∧
      (r.execution_status = some "COMPLETED" →
        skip_file_processing file args table = true) ∧
      (r.execution_status ≠ some "ERROR" → r.execution_status ≠ some "COMPLETED" →
        skip_file_processing file args table = args.skip_pending) := by
  constructor
  · intro h
    simp [skip_file_processing, h]
  · intro r h
    refine ⟨fun h1 => ?_, fun h1 => ?_, fun h1 h2 => ?_⟩
    · simp [skip_file_processing, h, h1]
    · simp [skip_file_processing, h, h1]
    · have hb1 : (r.execution_status == some "ERROR") = false :=
        beq_eq_false_iff_ne.mpr h1
      have hb2 : (r.execution_status == some "COMPLETED") = false :=
        beq_eq_false_iff_ne.mpr h2
      simp [skip_file_processing, h, hb1, hb2]

/-- Witness for C1: with no record, `skip_unprocessed = true` skips; an
ERROR record with `retry_failed = true` processes. -/
theorem skip_policy_matches_table_witness :
    skip_file_processing "f" ⟨false, false, false, true⟩ [] = true ∧
    skip_file_processing "g" ⟨true, false, true, false⟩ [errorRowG] = false := by
  constructor
  · exact (skip_policy_matches_table "f" ⟨false, false, false, true⟩ []).1 rfl
  · have h :=
      (((skip_policy_matches_table "g" ⟨true, false, true, false⟩
        [errorRowG]).2 errorRowG rfl).1) rfl
    simpa using h

/-- C8: on the §8 round-trip payload (embedding costs `"0.01"`,
`"0.02"`, tokens 10, 20, no `extraction_llm`), aggregation yields
embedding cost exactly 3/100 = 0.03, 30 tokens, and nulls for the LLM
pair. (In the source's double-precision arithmetic the sum
`float("0.01") + float("0.02")` is also exactly the double nearest 0.03,
so the exact-rational model agrees with the executed computation.) -/
theorem metric_aggregation_round_trip :
    calculate_cost_and_tokens roundTripPayload =
      .ok (some (3 / 100 : ℚ), none, some 30, none) := by
  with_unfolding_all rfl

/-- C9: `update_db` called with status ERROR and a null result always
raises (the error-message extraction dereferences the null result)
before writing anything; and the poll loop reaches exactly this call
when a status check returns ERROR — the driver then catches it and the
file fails. -/
theorem upsert_raises_on_error_null_result :
    (∀ (f now : String) (tt : Option ℚ) (sc : Option Int) (ep : Option String)
      (table : List Row), ∃ e,
        update_db f (some "ERROR") none tt sc ep now table = .error e) ∧
    ((process_file "f" errPollClient noFlags 0 []).trace.filter
      (fun ev => match ev with
        | .dbWrite (some "ERROR") none => true
        | _ => false)).length = 1 ∧
    (process_file "f" errPollClient noFlags 0 []).outcome = some .failed := by
  refine ⟨fun f now tt sc ep table => ⟨_, rfl⟩, by decide, by decide⟩

/-- C10: every successful ledger write stores the JSON serialization of
the supplied payload in the `result` column; `json.dumps(None)` is the
text `null`, so the column is never SQL `NULL` after a write. -/
theorem result_column_never_null (f : String) (st : Option String)
    (res : Option JValue) (tt : Option ℚ) (sc : Option Int) (ep : Option String)
    (now : String) (table t2 : List Row)
    (h : update_db f st res tt sc ep now table = .ok t2) :
    (∃ r, lookupRow t2 f = some r ∧ r.result = some (jsonDumps res)) ∧
    jsonDumps none = "null" := by
  obtain ⟨m, em, _, _, ht⟩ := update_db_ok_elim h
  subst ht
  exact ⟨⟨_, lookupRow_upsert _ _ _ rfl, rfl⟩, rfl⟩

/-- Witness for C10: a write with a null payload stores the text
`null`. -/
theorem result_column_never_null_witness :
    (∃ r, lookupRow [mkRow "f" none none none none none "t"
        (none, none, none, none) none "t"] "f" = some r ∧
      r.result = some (jsonDumps none)) ∧
    jsonDumps none = "null" :=
  result_column_never_null "f" none none none none none "t" [] _ rfl

/-- C7 counterexample: a payload whose first entry carries a numeric
`result` field makes the aggregator raise (`.get` on a number), so an
exception does escape the metric-aggregation function for some inputs. -/
theorem aggregator_raises_on_unexpected_shape :
    calculate_cost_and_tokens shapeErrPayload =
      .error "AttributeError: object has no attribute get" := by decide

/-- C7 (amended): whenever the nested `result` string fails to parse as
JSON, the aggregator treats it as an empty object and returns all-null
metrics without raising; the no-exception guarantee holds on this
parse-failure path (not for arbitrarily-shaped payloads). -/
theorem unparseable_nested_json_yields_nulls
    (payload item : JValue) (er : List JValue) (s e : String)
    (hp : pyGetD payload "extraction_result" (.arr []) = .ok (.arr (item :: er)))
    (hi : pyGetD item "result" (.str "") = .ok (.str s))
    (hl : jsonLoads s = .error e) :
    calculate_cost_and_tokens payload = .ok (none, none, none, none) := by
  unfold calculate_cost_and_tokens
  rw [hp, ebind_ok]
  simp only [truthy, List.isEmpty_cons, Bool.not_false, if_false, Bool.false_eq_true,
    ite_false]
  rw [show pyIndexZero (.arr (item :: er)) = .ok item from rfl, ebind_ok]
  rw [hi, ebind_ok]
  cases hs : s.isEmpty with
  | true =>
    simp only [hs]
    rfl
  | false =>
    simp only [hs, hl]
    rfl

/-- Witness for C7: a concrete malformed nested string degrades to
all-null metrics. -/
theorem unparseable_nested_json_yields_nulls_witness :
    calculate_cost_and_tokens (.obj [("extraction_result",
      .arr [.obj [("result", .str "\x7bbad")]])]) = .ok (none, none, none, none) :=
  unparseable_nested_json_yields_nulls _ _ [] "\x7bbad"
    "JSONDecodeError: Expecting value" rfl rfl rfl

/-- C2: two successive successful upserts to one key leave exactly one
row for it; its `created_at` is the value the first write fixed (the
pre-existing one, else the first write's timestamp), and every other
column holds the second write's values, with metrics and error message
recomputed from the second write's status and result. -/
theorem upsert_preserves_created_at
    (f : String) (st1 st2 : Option String) (res1 res2 : Option JValue)
    (tt1 tt2 : Option ℚ) (sc1 sc2 : Option Int) (ep1 ep2 : Option String)
    (now1 now2 : String) (table0 t1 t2 : List Row)
    (h1 : update_db f st1 res1 tt1 sc1 ep1 now1 table0 = .ok t1)
    (h2 : update_db f st2 res2 tt2 sc2 ep2 now2 t1 = .ok t2) :
    ∃ r2, lookupRow t2 f = some r2 ∧
      (t2.filter (fun r => r.file_name == f)).length = 1 ∧
      r2.created_at = ((lookupRow table0 f).map (fun r => r.created_at)).getD now1 ∧
      r2.execution_status = st2 ∧
      r2.result = some (jsonDumps res2) ∧
      r2.time_taken = tt2 ∧
      r2.status_code = sc2 ∧
      r2.status_api_endpoint = ep2 ∧
      r2.updated_at = now2 ∧
      dbMetrics res2 = .ok (r2.total_embedding_cost, r2.total_llm_cost,
        r2.total_embedding_tokens, r2.total_llm_tokens) ∧
      dbErrorMessage st2 res2 = .ok r2.error_message := by
  obtain ⟨m1, em1, _, _, ht1⟩ := update_db_ok_elim h1
  obtain ⟨m2, em2, hm2, he2, ht2⟩ := update_db_ok_elim h2
  subst ht1 ht2
  have hl1 := lookupRow_upsert table0
    (mkRow f st1 res1 tt1 sc1 ep1 now1 m1 em1
      (((lookupRow table0 f).map (fun r => r.created_at)).getD now1)) f rfl
  refine ⟨_, lookupRow_upsert _ _ _ rfl, countRow_upsert _ _ _ rfl, ?_, rfl, rfl,
    rfl, rfl, rfl, rfl, ?_, ?_⟩
  · simp only [mkRow] at hl1 ⊢
    rw [hl1]
    rfl
  · rw [hm2]
    rfl
  · rw [he2]
    rfl

/-- Witness for C2: a STARTING write then a COMPLETED write for the
same key; `created_at` stays at the first write's timestamp while
`updated_at` and the status move to the second write's values. -/
theorem upsert_preserves_created_at_witness :
    ∃ r2, lookupRow
        [mkRow "f" (some "COMPLETED") none none none none "b"
          (none, none, none, none) none "a"] "f" = some r2 ∧
      ([mkRow "f" (some "COMPLETED") none none none none "b"
          (none, none, none, none) none "a"].filter
        (fun r => r.file_name == "f")).length = 1 ∧
      r2.created_at = ((lookupRow ([] : List Row) "f").map
        (fun r => r.created_at)).getD "a" ∧
      r2.execution_status = some "COMPLETED" ∧
      r2.result = some (jsonDumps none) ∧
      r2.time_taken = none ∧
      r2.status_code = none ∧
      r2.status_api_endpoint = none ∧
      r2.updated_at = "b" ∧
      dbMetrics none = .ok (r2.total_embedding_cost, r2.total_llm_cost,
        r2.total_embedding_tokens, r2.total_llm_tokens) ∧
      dbErrorMessage (some "COMPLETED") none = .ok r2.error_message :=
  upsert_preserves_created_at "f" (some "STARTING") (some "COMPLETED") none none
    none none none none none none "a" "b" []
    [mkRow "f" (some "STARTING") none none none none "a"
      (none, none, none, none) none "a"]
    [mkRow "f" (some "COMPLETED") none none none none "b"
      (none, none, none, none) none "a"] rfl rfl

/-- Unrolling the summation loop against per-item extractions: when
every item's cost and token reads succeed, the loop returns the running
sums. -/
theorem sumCostTokens_eq (tokenKey : String) (items : List JValue) (c t : ℚ)
    (cs ts : List ℚ) (hc : items.mapM itemCost = .ok cs)
    (ht : items.mapM (itemTokens tokenKey) = .ok ts) :
    sumCostTokens tokenKey items c t = .ok (c + cs.sum, t + ts.sum) := by
  induction items generalizing c t cs ts with
  | nil =>
    simp only [List.mapM_nil] at hc ht
    injection hc with hc
    injection ht with ht
    subst hc ht
    simp [sumCostTokens]
  | cons x xs ih =>
    rw [List.mapM_cons] at hc ht
    cases hcx : itemCost x with
    | error e => rw [hcx, ebind_err] at hc; exact Except.noConfusion hc
    | ok cq =>
      rw [hcx, ebind_ok] at hc
      cases hcs : xs.mapM itemCost with
      | error e => rw [hcs, ebind_err] at hc; exact Except.noConfusion hc
      | ok cs2 =>
        rw [hcs, ebind_ok] at hc
        injection hc with hc
        cases htx : itemTokens tokenKey x with
        | error e => rw [htx, ebind_err] at ht; exact Except.noConfusion ht
        | ok tq =>
          rw [htx, ebind_ok] at ht
          cases hts : xs.mapM (itemTokens tokenKey) with
          | error e => rw [hts, ebind_err] at ht; exact Except.noConfusion ht
          | ok ts2 =>
            rw [hts, ebind_ok] at ht
            injection ht with ht
            subst hc ht
            show (do
              let cq2 ← itemCost x
              let tq2 ← itemTokens tokenKey x
              sumCostTokens tokenKey xs (c + cq2) (t + tq2)) = _
            rw [hcx, ebind_ok, htx, ebind_ok, ih _ _ _ _ hcs hts]
            simp [add_assoc]

/-- C6: over a payload carrying `embedding` and `extraction_llm` lists,
the aggregator returns the sums of the per-item `cost_in_dollars` and
token values of each list, and null (not zero) for a pair whose list is
absent or empty. -/
theorem aggregator_sums_lists (emb llm : Option (List JValue))
    (cs ts ls lt : List ℚ)
    (hec : (emb.getD []).mapM itemCost = .ok cs)
    (het : (emb.getD []).mapM (itemTokens "embedding_tokens") = .ok ts)
    (hlc : (llm.getD []).mapM itemCost = .ok ls)
    (hlt : (llm.getD []).mapM (itemTokens "total_tokens") = .ok lt) :
    calculate_cost_and_tokens (mkMetaPayload emb llm) = .ok
      ((match emb with | some (_ :: _) => some cs.sum | _ => none),
       (match llm with | some (_ :: _) => some ls.sum | _ => none),
       (match emb with | some (_ :: _) => some ts.sum | _ => none),
       (match llm with | some (_ :: _) => some lt.sum | _ => none)) := by
  cases emb with
  | none =>
    cases llm with
    | none => rfl
    | some l =>
      cases l with
      | nil => rfl
      | cons y ys =>
        simp only [Option.getD] at hlc hlt
        show (do
          let p ← sumCostTokens "total_tokens" (y :: ys) 0 0
          pure (none, some p.1, none, some p.2) :
            Except String (Option ℚ × Option ℚ × Option ℚ × Option ℚ)) = _
        rw [sumCostTokens_eq _ _ _ _ _ _ hlc hlt, ebind_ok]
        simp only [zero_add]
        rfl
  | some l =>
    cases l with
    | nil =>
      cases llm with
      | none => rfl
      | some l2 =>
        cases l2 with
        | nil => rfl
        | cons y ys =>
          simp only [Option.getD] at hlc hlt
          show (do
            let p ← sumCostTokens "total_tokens" (y :: ys) 0 0
            pure (none, some p.1, none, some p.2) :
              Except String (Option ℚ × Option ℚ × Option ℚ × Option ℚ)) = _
          rw [sumCostTokens_eq _ _ _ _ _ _ hlc hlt, ebind_ok]
          simp only [zero_add]
          rfl
    | cons x xs =>
      simp only [Option.getD] at hec het
      cases llm with
      | none =>
        show (do
          let p ← sumCostTokens "embedding_tokens" (x :: xs) 0 0
          pure (some p.1, none, some p.2, none) :
            Except String (Option ℚ × Option ℚ × Option ℚ × Option ℚ)) = _
        rw [sumCostTokens_eq _ _ _ _ _ _ hec het, ebind_ok]
        simp only [zero_add]
        rfl
      | some l2 =>
        cases l2 with
        | nil =>
          show (do
            let p ← sumCostTokens "embedding_tokens" (x :: xs) 0 0
            pure (some p.1, none, some p.2, none) :
              Except String (Option ℚ × Option ℚ × Option ℚ × Option ℚ)) = _
          rw [sumCostTokens_eq _ _ _ _ _ _ hec het, ebind_ok]
          simp only [zero_add]
          rfl
        | cons y ys =>
          simp only [Option.getD] at hlc hlt
          show (do
            let p ← sumCostTokens "embedding_tokens" (x :: xs) 0 0
            let p2 ← sumCostTokens "total_tokens" (y :: ys) 0 0
            pure (some p.1, some p2.1, some p.2, some p2.2) :
              Except String (Option ℚ × Option ℚ × Option ℚ × Option ℚ)) = _
          rw [sumCostTokens_eq _ _ _ _ _ _ hec het, ebind_ok,
            sumCostTokens_eq _ _ _ _ _ _ hlc hlt, ebind_ok]
          simp only [zero_add]
          rfl

/-- Witness for C6: the two-entry embedding list sums to 3/100 and 30
tokens; the absent `extraction_llm` pair stays null. -/
theorem aggregator_sums_lists_witness :
    calculate_cost_and_tokens (mkMetaPayload (some [embEntry1, embEntry2]) none) =
      .ok (some ([mkRat 1 100, mkRat 2 100].sum), none,
        some ([(10 : ℚ), 20].sum), none) :=
  aggregator_sums_lists (some [embEntry1, embEntry2]) none
    [mkRat 1 100, mkRat 2 100] [(10 : ℚ), 20] [] []
    (by with_unfolding_all rfl) (by with_unfolding_all rfl) rfl rfl


/-- C3 counterexample: the claim as stated fails for a stored handle
that is non-null but empty. A PENDING row storing the empty-string
endpoint is treated as having no handle (Python truthiness): the driver
issues a fresh submission — a submit call is made and ledger writes
occur — instead of transitioning directly to PENDING. -/
theorem resume_claim_fails_on_empty_handle :
    emptyHandleRow.status_api_endpoint = some "" ∧
    noFlags.retry_pending = false ∧
    ((get_status_endpoint "f" (.ok pendResp) noFlags (nowStr 0) (nowStr 1)
      [emptyHandleRow]).trace.filter isSubmitCall).length = 1 ∧
    ((get_status_endpoint "f" (.ok pendResp) noFlags (nowStr 0) (nowStr 1)
      [emptyHandleRow]).trace.filter isDbWrite).length = 2 := by
  refine ⟨rfl, rfl, ?_, ?_⟩ <;> decide

/-- C3 (amended): for a file whose ledger record is non-terminal and
stores a non-null, non-empty resume handle: with `retry_pending` off the
driver transitions directly to PENDING on the stored handle — no submit
call, no ledger write at that step — and, whenever the run produces an
outcome, the file has reached a terminal recorded state with only
status-check calls made; with `retry_pending` on, the handle is
discarded and a fresh submission is issued: a STARTING record is
written, then the submit call is made. -/
theorem resume_uses_stored_handle (file h st0 : String) (client : Client)
    (args : Arguments) (elapsed : ℚ) (table : List Row) (r0 : Row)
    (hr : lookupRow table file = some r0)
    (hst : r0.execution_status = some st0)
    (h1 : st0 ≠ "COMPLETED") (h2 : st0 ≠ "ERROR")
    (hep : r0.status_api_endpoint = some h) (hne : h ≠ "")
    (hsp : args.skip_pending = false) :
    (args.retry_pending = false →
      get_status_endpoint file client.submit args (nowStr 0) (nowStr 1) table =
        ⟨table, [], .ok (some h, some "PENDING", none)⟩ ∧
      ((process_file file client args elapsed table).trace.filter isSubmitCall) = [] ∧
      (∀ oc, (process_file file client args elapsed table).outcome = some oc →
        ∃ r, lookupRow (process_file file client args elapsed table).table file =
            some r ∧
          (r.execution_status = some "COMPLETED" ∨
            r.execution_status = some "ERROR"))) ∧
    (args.retry_pending = true →
      ∃ rest, (get_status_endpoint file client.submit args (nowStr 0) (nowStr 1)
          table).trace =
        Event.dbWrite (some "STARTING") none :: Event.submitCall :: rest) := by
  have hq : pendingEndpointQuery table file = some (some h) := by
    have hq0 := pendingEndpointQuery_of_lookup table file r0 hr
      (by rw [hst]
          simp [beq_eq_false_iff_ne.mpr h1, beq_eq_false_iff_ne.mpr h2])
    rw [hep] at hq0
    exact hq0
  have hskip : skip_file_processing file args table = false :=
    skip_false_of_nonterminal file args table r0 st0 hr hst h2 h1 hsp
  constructor
  · intro hrp
    have hgse := gse_retained file h client.submit args (nowStr 0) (nowStr 1)
      table hq hne hrp
    have hpf : process_file file client args elapsed table =
        (match poll_loop file (some h) 2 client.polls (some "PENDING") none none
            table [] with
         | .hung t tr => ⟨none, none, t, tr⟩
         | .exc e sc t tr => finalWrite file (some "ERROR") (some (errObj e))
             elapsed sc (some h) (some .failed) t tr
         | .done st lastResp sc t tr => finalWrite file st
             (lastResp.map (fun r => r.body)) elapsed sc (some h)
             (some .succeeded) t tr) := by
      simp only [process_file, hskip, Bool.false_eq_true, if_false, hgse]
    have hns := poll_loop_no_submit file (some h) 2 client.polls
      (some "PENDING") none none table [] rfl
    refine ⟨hgse, ?_, ?_⟩
    · rw [hpf]
      cases hpoll : poll_loop file (some h) 2 client.polls (some "PENDING")
          none none table [] with
      | hung t tr =>
        rw [hpoll] at hns
        exact hns
      | exc e sc t tr =>
        rw [hpoll] at hns
        show (List.filter isSubmitCall (finalWrite file (some "ERROR")
          (some (errObj e)) elapsed sc (some h) (some Outcome.failed)
          t tr).trace) = []
        rw [finalWrite_errObj]
        simp only [List.filter_append]
        simp only [PollOut.traceOf] at hns
        rw [hns]
        rfl
      | done st lr sc t tr =>
        rw [hpoll] at hns
        show (List.filter isSubmitCall (finalWrite file st
          (lr.map (fun r => r.body)) elapsed sc (some h)
          (some Outcome.succeeded) t tr).trace) = []
        rcases finalWrite_cases file st (lr.map (fun r => r.body)) elapsed sc
            (some h) (some .succeeded) t tr with ⟨t2, _, hfw⟩ | ⟨e2, _, hfw⟩ <;>
        · rw [hfw]
          simp only [List.filter_append]
          simp only [PollOut.traceOf] at hns
          rw [hns]
          rfl
    · intro oc hoc
      rw [hpf] at hoc ⊢
      cases hpoll : poll_loop file (some h) 2 client.polls (some "PENDING")
          none none table [] with
      | hung t tr =>
        rw [hpoll] at hoc
        exact Option.noConfusion hoc
      | exc e sc t tr =>
        show ∃ r, lookupRow (finalWrite file (some "ERROR") (some (errObj e))
            elapsed sc (some h) (some Outcome.failed) t tr).table file =
            some r ∧ (r.execution_status = some "COMPLETED" ∨
              r.execution_status = some "ERROR")
        rw [finalWrite_errObj]
        exact ⟨_, lookupRow_upsert _ _ _ rfl, Or.inr rfl⟩
      | done st lr sc t tr =>
        show ∃ r, lookupRow (finalWrite file st (lr.map (fun r => r.body))
            elapsed sc (some h) (some Outcome.succeeded) t tr).table file =
            some r ∧ (r.execution_status = some "COMPLETED" ∨
              r.execution_status = some "ERROR")
        have hterm := poll_loop_done_terminal _ _ _ _ _ _ _ _ _ hpoll
        rcases finalWrite_cases file st (lr.map (fun r => r.body)) elapsed sc
            (some h) (some .succeeded) t tr with ⟨t2, hu, hfw⟩ | ⟨e2, _, hfw⟩
        · rw [hfw]
          obtain ⟨m, em, _, _, ht2⟩ := update_db_ok_elim hu
          subst ht2
          exact ⟨_, lookupRow_upsert _ _ _ rfl, hterm⟩
        · rw [hfw]
          rcases poll_loop_done_cases _ _ _ _ _ _ _ _ _ hpoll with
            ⟨hst2, _⟩ | ⟨r2, hr2, hst2⟩
          · exfalso
            rw [hst2] at hterm
            rcases hterm with h3 | h3 <;> simp at h3
          · exact ⟨r2, hr2, by rw [hst2]; exact hterm⟩
  · intro hrp
    have hf : truthyOptStr (if args.retry_pending then none
        else storedEndpoint table file) = false := by
      rw [hrp]
      rfl
    cases hsub : client.submit with
    | error e =>
      rw [gse_fresh_submit_err file e args (nowStr 0) (nowStr 1) table hf]
      exact ⟨[], rfl⟩
    | ok r =>
      simp only [get_status_endpoint, hf, Bool.false_eq_true, if_false,
        update_db_none_ok file (some "STARTING") none none none (nowStr 0) table
          (by simp)]
      cases hupd2 : update_db file r.execution_status (some r.body) none
          r.status_code r.status_check_api_endpoint (nowStr 1)
          (table.filter (fun r => !(r.file_name == file)) ++
            [mkRow file (some "STARTING") none none none none (nowStr 0)
              (none, none, none, none) none
              (((lookupRow table file).map (fun r => r.created_at)).getD
                (nowStr 0))]) with
      | error e2 => exact ⟨[Event.dbWrite r.execution_status (some r.body)], rfl⟩
      | ok t2 => exact ⟨[Event.dbWrite r.execution_status (some r.body)], rfl⟩

/-- Witness for C3: a stored PENDING row with handle `ep` is resumed
directly (no submit call in the whole run). -/
theorem resume_uses_stored_handle_witness :
    get_status_endpoint "f" okClient.submit noFlags (nowStr 0) (nowStr 1)
      [pendingRow] = ⟨[pendingRow], [], .ok (some "ep", some "PENDING", none)⟩ ∧
    ((process_file "f" okClient noFlags 0 [pendingRow]).trace.filter
      isSubmitCall) = [] := by
  have ha := (resume_uses_stored_handle "f" "ep" "PENDING" okClient noFlags 0
    [pendingRow] pendingRow rfl rfl (by decide) (by decide) rfl (by decide)
    rfl).1 rfl
  exact ⟨ha.1, ha.2.1⟩


/-- C4: any exception from the external client — raised at submission or
during polling — is caught at the driver boundary: the outcome is
exactly one failed count, no exception escapes `process_file`, and the
ledger holds a terminal ERROR row whose result is the serialized
`error` dict and whose `error_message` is the exception text. -/
theorem client_exception_contained (file e : String) (args : Arguments)
    (table : List Row) (elapsed : ℚ) :
    (∀ polls : List (Except String ClientResponse),
      skip_file_processing file args table = false →
      truthyOptStr (if args.retry_pending then none
        else storedEndpoint table file) = false →
      (process_file file ⟨.error e, polls⟩ args elapsed table).outcome =
        some .failed ∧
      (process_file file ⟨.error e, polls⟩ args elapsed table).escaped = none ∧
      ∃ r, lookupRow (process_file file ⟨.error e, polls⟩ args elapsed
          table).table file = some r ∧
        r.execution_status = some "ERROR" ∧
        r.result = some (jsonDumps (some (errObj e))) ∧
        r.error_message = some (.str e)) ∧
    (∀ (sub : Except String ClientResponse) (ps : List ClientResponse)
      (ep st0 : Option String) (resp : Option ClientResponse)
      (t0 : List Row) (tr0 : List Event),
      skip_file_processing file args table = false →
      get_status_endpoint file sub args (nowStr 0) (nowStr 1) table =
        ⟨t0, tr0, .ok (ep, st0, resp)⟩ →
      st0 ≠ some "COMPLETED" → st0 ≠ some "ERROR" →
      (∀ x ∈ ps, x.execution_status ≠ some "COMPLETED" ∧
        x.execution_status ≠ some "ERROR") →
      (process_file file ⟨sub, ps.map .ok ++ [.error e]⟩ args elapsed
        table).outcome = some .failed ∧
      (process_file file ⟨sub, ps.map .ok ++ [.error e]⟩ args elapsed
        table).escaped = none ∧
      ∃ r, lookupRow (process_file file ⟨sub, ps.map .ok ++ [.error e]⟩ args
          elapsed table).table file = some r ∧
        r.execution_status = some "ERROR" ∧
        r.result = some (jsonDumps (some (errObj e))) ∧
        r.error_message = some (.str e)) := by
  constructor
  · intro polls hskip hf
    have hgse := gse_fresh_submit_err file e args (nowStr 0) (nowStr 1) table hf
    have hpf : process_file file ⟨.error e, polls⟩ args elapsed table =
        finalWrite file (some "ERROR") (some (errObj e)) elapsed none none
          (some .failed)
          (table.filter (fun r => !(r.file_name == file)) ++
            [mkRow file (some "STARTING") none none none none (nowStr 0)
              (none, none, none, none) none
              (((lookupRow table file).map (fun r => r.created_at)).getD
                (nowStr 0))])
          [Event.dbWrite (some "STARTING") none, Event.submitCall] := by
      simp only [process_file, hskip, Bool.false_eq_true, if_false, hgse]
    rw [hpf, finalWrite_errObj]
    exact ⟨rfl, rfl, _, lookupRow_upsert _ _ _ rfl, rfl, rfl, rfl⟩
  · intro sub ps ep st0 resp t0 tr0 hskip hgse hs1 hs2 hall
    obtain ⟨sc2, t2, tr2, hexc⟩ := poll_loop_nonterminal_exc file ep 2 ps e st0
      none resp t0 tr0 hs1 hs2 hall
    have hpf : process_file file ⟨sub, ps.map .ok ++ [.error e]⟩ args elapsed
        table =
        finalWrite file (some "ERROR") (some (errObj e)) elapsed sc2 ep
          (some .failed) t2 tr2 := by
      simp only [process_file, hskip, Bool.false_eq_true, if_false, hgse]
      rw [hexc]
    rw [hpf, finalWrite_errObj]
    exact ⟨rfl, rfl, _, lookupRow_upsert _ _ _ rfl, rfl, rfl, rfl⟩

/-- Witness for C4: a submission that raises `boom` on an empty ledger
leaves one failed ERROR row carrying the message, and nothing escapes. -/
theorem client_exception_contained_witness :
    (process_file "f" ⟨.error "boom", []⟩ noFlags 0 []).outcome =
      some .failed ∧
    (process_file "f" ⟨.error "boom", []⟩ noFlags 0 []).escaped = none ∧
    ∃ r, lookupRow (process_file "f" ⟨.error "boom", []⟩ noFlags 0 []).table
        "f" = some r ∧
      r.execution_status = some "ERROR" ∧
      r.result = some (jsonDumps (some (errObj "boom"))) ∧
      r.error_message = some (.str "boom") :=
  (client_exception_contained "f" "boom" noFlags [] 0).1 [] rfl rfl

/-- One step of the dispatcher fold. -/
theorem runFiles_cons (clients : String → Client) (args : Arguments)
    (elapsed : ℚ) (f : String) (fs : List String) (c : Counters) (hung : ℕ)
    (t : List Row) :
    runFiles clients args elapsed (f :: fs) c hung t =
      (match (process_file f (clients f) args elapsed t).outcome with
       | some o => runFiles clients args elapsed fs (incCounters c o) hung
           (process_file f (clients f) args elapsed t).table
       | none => runFiles clients args elapsed fs c (hung + 1)
           (process_file f (clients f) args elapsed t).table) := by
  conv_lhs => unfold runFiles

/-- The dispatcher fold adds one unit per file to the counter total
(hung files — poll oracle exhausted — counted separately). -/
theorem runFiles_sum (clients : String → Client) (args : Arguments)
    (elapsed : ℚ) (fs : List String) :
    ∀ (c : Counters) (hung : ℕ) (t : List Row),
      (runFiles clients args elapsed fs c hung t).1.succeeded +
        (runFiles clients args elapsed fs c hung t).1.failed +
        (runFiles clients args elapsed fs c hung t).1.skipped +
        (runFiles clients args elapsed fs c hung t).2.1 =
      c.succeeded + c.failed + c.skipped + hung + fs.length := by
  induction fs with
  | nil =>
    intro c hung t
    show c.succeeded + c.failed + c.skipped + hung = _
    simp
  | cons f fs ih =>
    intro c hung t
    rw [runFiles_cons]
    cases ho : (process_file f (clients f) args elapsed t).outcome with
    | some o =>
      rw [ih (incCounters c o) hung
        (process_file f (clients f) args elapsed t).table]
      cases o <;> simp [incCounters] <;> omega
    | none =>
      rw [ih c (hung + 1) (process_file f (clients f) args elapsed t).table]
      simp
      omega

/-- C5: over a run of N files, each processed file moves exactly one
counter once, so succeeded + failed + skipped (+ the files whose poll
oracle never terminates, which in the source never let the run end)
equals N; when every file terminates the three counters alone sum to N,
and the total is invariant under any permutation (completion order) of
the file list. -/
theorem counters_sum_to_file_count (files : List String)
    (clients : String → Client) (args : Arguments) (elapsed : ℚ)
    (table0 : List Row) :
    ((load_folder files clients args elapsed table0).1.succeeded +
      (load_folder files clients args elapsed table0).1.failed +
      (load_folder files clients args elapsed table0).1.skipped) +
      (load_folder files clients args elapsed table0).2.1 = files.length ∧
    ((load_folder files clients args elapsed table0).2.1 = 0 →
      (load_folder files clients args elapsed table0).1.succeeded +
        (load_folder files clients args elapsed table0).1.failed +
        (load_folder files clients args elapsed table0).1.skipped =
        files.length) ∧
    ∀ files2, files.Perm files2 →
      ((load_folder files2 clients args elapsed table0).1.succeeded +
        (load_folder files2 clients args elapsed table0).1.failed +
        (load_folder files2 clients args elapsed table0).1.skipped) +
        (load_folder files2 clients args elapsed table0).2.1 =
        files.length := by
  have hmain : ∀ fs : List String,
      ((load_folder fs clients args elapsed table0).1.succeeded +
        (load_folder fs clients args elapsed table0).1.failed +
        (load_folder fs clients args elapsed table0).1.skipped) +
        (load_folder fs clients args elapsed table0).2.1 = fs.length := by
    intro fs
    have h := runFiles_sum clients args elapsed fs ⟨0, 0, 0⟩ 0 table0
    simpa [load_folder] using h
  refine ⟨hmain files, ?_, ?_⟩
  · intro h0
    have := hmain files
    omega
  · intro files2 hperm
    rw [hmain files2, hperm.length_eq]

/-- Witness for C5: two skipped files sum to 2, in either completion
order. -/
theorem counters_sum_to_file_count_witness :
    ((load_folder ["a", "b"] (fun _ => okClient) ⟨false, false, false, true⟩ 0
        []).1.succeeded +
      (load_folder ["a", "b"] (fun _ => okClient) ⟨false, false, false, true⟩ 0
        []).1.failed +
      (load_folder ["a", "b"] (fun _ => okClient) ⟨false, false, false, true⟩ 0
        []).1.skipped) = 2 ∧
    ((load_folder ["b", "a"] (fun _ => okClient) ⟨false, false, false, true⟩ 0
        []).1.succeeded +
      (load_folder ["b", "a"] (fun _ => okClient) ⟨false, false, false, true⟩ 0
        []).1.failed +
      (load_folder ["b", "a"] (fun _ => okClient) ⟨false, false, false, true⟩ 0
        []).1.skipped) +
      (load_folder ["b", "a"] (fun _ => okClient) ⟨false, false, false, true⟩ 0
        []).2.1 = 2 := by
  have h := counters_sum_to_file_count ["a", "b"] (fun _ => okClient)
    ⟨false, false, false, true⟩ 0 []
  refine ⟨?_, ?_⟩
  · have h2 := h.2.1 (by decide)
    simpa using h2
  · have h3 := h.2.2 ["b", "a"] (List.Perm.swap "b" "a" [])
    simpa using h3

end BatchRun
